import Mathlib

/-!
Verification of the CueConnect backend's table-reservation, game-session and
token-ledger logic.  The definitions below are shallow embeddings of the
route handlers in `routes/tableRoutes.js`, `routes/paymentRoutes.js`,
`server.js` (Stripe webhook) and `services/gameService.js`, together with the
data model of `models/Table.js` (the revision whose status enum covers all
statuses the routes use), `models/Session.js` and `models/User.js`.
Mongo documents become Lean structures; `findById` results become `Option`
values supplied as inputs; handler responses become a record holding the HTTP
status code and the post-state of every document the handler can write.
Timestamps and notification side effects are not modelled: no claim depends
on them.
-/

namespace CueConnect

abbrev UserId := String
abbrev PaymentIntentId := String

/-- `models/Table.js` status enum:
`['available','occupied','queued','in_play','awaiting_confirmation','maintenance','out_of_order']`. -/
inductive TableStatus
  | available
  | occupied
  | queued
  | in_play
  | awaiting_confirmation
  | maintenance
  | out_of_order
deriving DecidableEq, Repr

/-- `currentPlayers` subdocument of `models/Table.js`: two nullable user ids. -/
structure CurrentPlayers where
  player1Id : Option UserId
  player2Id : Option UserId
deriving DecidableEq, Repr

/-- A table document (`models/Table.js`): status, occupant slots, the current
session reference and the waiting queue of user ids (`queue: [String]`).
Venue id, table number and device id play no role in the claims. -/
structure Table where
  status : TableStatus
  currentPlayers : CurrentPlayers
  currentSessionId : Option Nat
  queue : List UserId
deriving DecidableEq, Repr

/-- Session status values used by the handlers under verification. -/
inductive SessionStatus
  | pending
  | active
  | pending_confirmation
  | completed
  | disputed
  | cancelled
deriving DecidableEq, Repr

/-- A game-session document (`models/Session.js`): the fields the verified
handlers read or write. -/
structure Session where
  player1Id : UserId
  player2Id : Option UserId
  cost : Int
  status : SessionStatus
  winnerId : Option UserId
deriving DecidableEq, Repr

/-- Response of `POST /api/tables/:tableId/pay-for-table`
(`routes/tableRoutes.js`): HTTP status plus the post-state of the documents
the handler can write (the paying user's balance, the table, the created
session). -/
structure PayForTableOut where
  httpStatus : Nat
  userBal : Option Int
  table : Option Table
  newSession : Option Session
deriving DecidableEq, Repr

/-- `POST /api/tables/:tableId/pay-for-table` (`routes/tableRoutes.js`
lines 235-318).  Checks, in source order: caller pays for themselves;
`cost` is a positive number; the user exists; `tokenBalance >= cost`;
the table exists; table status is `available` or `occupied`.  On success it
decrements the balance, creates an `active` session of type `game` (id
`newSid`), sets the payer as player 1 and the table `in_play`. -/
def payForTable (authUid userId : UserId) (cost : Int) (newSid : Nat)
    (userBal : Option Int) (table : Option Table) : PayForTableOut :=
  if ¬(authUid = userId) then ⟨403, userBal, table, none⟩
  else if cost ≤ 0 then ⟨400, userBal, table, none⟩
  else
    match userBal with
    | none => ⟨404, none, table, none⟩
    | some b =>
      if b < cost then ⟨400, some b, table, none⟩
      else
        match table with
        | none => ⟨404, some b, none, none⟩
        | some t =>
          if ¬(t.status = TableStatus.available) ∧ ¬(t.status = TableStatus.occupied) then
            ⟨400, some b, some t, none⟩
          else
            ⟨200, some (b - cost),
              some { t with
                      status := TableStatus.in_play,
                      currentPlayers := { t.currentPlayers with player1Id := some userId },
                      currentSessionId := some newSid },
              some { player1Id := userId, player2Id := none, cost := cost,
                     status := SessionStatus.active, winnerId := none }⟩

/-- Response of `POST /api/payments/confirm` (`routes/paymentRoutes.js`). -/
structure ConfirmPaymentOut where
  httpStatus : Nat
  session : Option Session
  userBal : Option Int
deriving DecidableEq, Repr

/-- `POST /api/payments/confirm` (`routes/paymentRoutes.js` lines 63-110):
the ConfirmPayment debit.  403 when the session is missing or the caller is
not one of its players; 400 when the user is missing or
`tokenBalance < session.cost`; otherwise debits the balance and marks the
session `active`. -/
def confirmPayment (uid : UserId) (session : Option Session)
    (userBal : Option Int) : ConfirmPaymentOut :=
  match session with
  | none => ⟨403, none, userBal⟩
  | some s =>
    if ¬(s.player1Id = uid) ∧ ¬(s.player2Id = some uid) then ⟨403, some s, userBal⟩
    else
      match userBal with
      | none => ⟨400, some s, none⟩
      | some b =>
        if b < s.cost then ⟨400, some s, some b⟩
        else ⟨200, some { s with status := SessionStatus.active }, some (b - s.cost)⟩

/-- Response of `POST /api/tables/:tableId/pay-with-tokens`
(`routes/tableRoutes.js`).  The handler writes only the user's balance; the
table document and the session store are threaded through so the frame can be
stated. -/
structure PayWithTokensOut where
  httpStatus : Nat
  userBal : Option Int
  table : Option Table
  sessions : List Session
deriving DecidableEq, Repr

/-- `POST /api/tables/:tableId/pay-with-tokens` (`routes/tableRoutes.js`
lines 647-692).  Checks, in source order: the user exists; the table exists
(`perGameCost` comes from the populated venue); the supplied `cost` equals
the venue's `perGameCost`; `tokenBalance >= cost`.  On success it only
decrements the balance — the handler never writes the table and never
creates a session. -/
def payWithTokens (cost : Int) (userBal : Option Int) (table : Option Table)
    (perGameCost : Int) (sessions : List Session) : PayWithTokensOut :=
  match userBal with
  | none => ⟨404, none, table, sessions⟩
  | some b =>
    match table with
    | none => ⟨404, some b, none, sessions⟩
    | some t =>
      if ¬(cost = perGameCost) then ⟨400, some b, some t, sessions⟩
      else if b < cost then ⟨400, some b, some t, sessions⟩
      else ⟨200, some (b - cost), some t, sessions⟩

/-- A session record of type `token_purchase` (`models/Session.js`), with the
`stripePaymentIntentId` field the webhook writes. -/
structure TokenPurchaseSession where
  player1Id : UserId
  purchasedTokens : Int
  status : SessionStatus
  stripePaymentIntentId : Option PaymentIntentId
deriving DecidableEq, Repr

/-- State touched by the `payment_intent.succeeded` webhook branch: the token
balance of the user named in the event metadata and the internal session that
`metadata.sessionId` refers to. -/
structure WebhookState where
  tokenBalance : Int
  session : Option TokenPurchaseSession
deriving DecidableEq, Repr

/-- `payment_intent.succeeded` branch of `POST /stripe-webhook` (`server.js`
lines 41-87), for an event whose metadata is well-formed
(`sessionType === 'token_purchase'`, user found in the database).  The
handler increments the user's `tokenBalance` by `metadata.tokensAmount` and
saves it, then marks the internal session completed (or, when the session is
missing, creates a fallback record carrying `stripePaymentIntentId`).  It
performs no lookup by payment-intent id before crediting; the balance save
precedes every session save, and errors thrown afterwards are caught and
logged. -/
def onPaymentIntentSucceeded (intentId : PaymentIntentId) (userId : UserId)
    (tokens : Int) (st : WebhookState) : WebhookState :=
  if tokens = 0 then st
  else
    { tokenBalance := st.tokenBalance + tokens,
      session :=
        match st.session with
        | some s => some { s with
            status := SessionStatus.completed,
            stripePaymentIntentId := some intentId }
        | none => some { player1Id := userId, purchasedTokens := tokens,
                         status := SessionStatus.completed,
                         stripePaymentIntentId := some intentId } }

/-- One in-flight debit request handler (pay-for-table / ConfirmPayment),
broken at its storage interactions: `pc = 0` before `User.findById` (the
read) and the `tokenBalance < cost` check, `pc = 1` before `user.save()`
(which writes back `readVal - cost`, the value computed from the read),
`pc = 2` done.  `passed` records whether the balance check succeeded. -/
structure DebitThread where
  cost : Int
  pc : Nat
  readVal : Int
  passed : Bool
deriving DecidableEq, Repr

/-- Two concurrent debit handlers against one user's `tokenBalance`.  The
source serializes nothing: each handler does an unguarded read-modify-write
(`const user = await User.findById(...)`; `if (user.tokenBalance < cost) ...`;
`user.tokenBalance -= cost; await user.save()`). -/
structure LedgerConc where
  tokenBalance : Int
  t1 : DebitThread
  t2 : DebitThread
deriving DecidableEq, Repr

/-- One storage interaction of a debit handler.  At `pc = 0` the handler
reads the balance and evaluates `tokenBalance < cost` (failing the request
when true); at `pc = 1`, if the check passed, `user.save()` writes the
document value `readVal - cost` computed from its own earlier read. -/
def debitStep (balance : Int) (p : DebitThread) : Int × DebitThread :=
  match p.pc with
  | 0 => (balance, { p with
      pc := 1,
      readVal := balance,
      passed := !(decide (balance < p.cost)) })
  | 1 =>
    if p.passed then (p.readVal - p.cost, { p with pc := 2 })
    else (balance, { p with pc := 2 })
  | _ => (balance, p)

/-- Run one scheduler pick: `false` advances handler 1, `true` handler 2. -/
def schedStep (st : LedgerConc) (pick2 : Bool) : LedgerConc :=
  if pick2 then
    let r := debitStep st.tokenBalance st.t2
    { st with tokenBalance := r.1, t2 := r.2 }
  else
    let r := debitStep st.tokenBalance st.t1
    { st with tokenBalance := r.1, t1 := r.2 }

/-- Execute an interleaving of the two debit handlers. -/
def runSchedule (sched : List Bool) (st : LedgerConc) : LedgerConc :=
  sched.foldl schedStep st

/-- Response of `POST /api/tables/:tableId/confirm-win`
(`routes/tableRoutes.js`).  `users` is the token-balance map; it is threaded
through because the handler performs no user write (in particular, no
credit). -/
structure ConfirmWinOut where
  httpStatus : Nat
  session : Option Session
  table : Option Table
  users : UserId → Int

/-- `POST /api/tables/:tableId/confirm-win` (`routes/tableRoutes.js`
lines 425-475).  Checks, in source order: session and table exist; the
session is `pending_confirmation` with `winnerId` equal to the claimed
winner; the confirmer is one of the session's players; the confirmer is not
the winner (else 400 `You cannot confirm your own win`).  On success the
session becomes `completed` and the table is reset: `available`, both player
slots cleared, `currentSessionId` null.  No token movement occurs and no
queue invitation is issued. -/
def confirmWin (confirmerId winnerId : UserId) (session : Option Session)
    (table : Option Table) (users : UserId → Int) : ConfirmWinOut :=
  match session, table with
  | none, _ => ⟨404, session, table, users⟩
  | some _, none => ⟨404, session, table, users⟩
  | some s, some t =>
    if ¬(s.status = SessionStatus.pending_confirmation) ∨ ¬(s.winnerId = some winnerId) then
      ⟨400, some s, some t, users⟩
    else if ¬(s.player1Id = confirmerId) ∧ ¬(s.player2Id = some confirmerId) then
      ⟨403, some s, some t, users⟩
    else if confirmerId = winnerId then
      ⟨400, some s, some t, users⟩
    else
      ⟨200, some { s with status := SessionStatus.completed },
        some { t with
          status := TableStatus.available,
          currentPlayers := ⟨none, none⟩,
          currentSessionId := none },
        users⟩

/-- `POST /api/tables/:tableId/join-queue` (`routes/tableRoutes.js`
lines 59-91).  403 unless the caller joins for themselves; 404 when the
table is missing; 400 when the user is already in the queue or occupies a
player slot; otherwise the user id is pushed onto the queue's tail and the
table status is set to `queued`. -/
def joinQueue (authUid userId : UserId) (table : Option Table) :
    Nat × Option Table :=
  if ¬(authUid = userId) then (403, table)
  else
    match table with
    | none => (404, none)
    | some t =>
      if userId ∈ t.queue ∨ t.currentPlayers.player1Id = some userId
          ∨ t.currentPlayers.player2Id = some userId then
        (400, some t)
      else
        (200, some { t with
          queue := t.queue ++ [userId],
          status := TableStatus.queued })

/-- The documented table invariant: a user id appears in at most one of
{player1, player2, queue}, and the queue has no duplicates. -/
def TableInv (t : Table) : Prop :=
  t.queue.Nodup
  ∧ (∀ u ∈ t.queue, ¬(t.currentPlayers.player1Id = some u)
      ∧ ¬(t.currentPlayers.player2Id = some u))
  ∧ (t.currentPlayers.player1Id = none
      ∨ ¬(t.currentPlayers.player1Id = t.currentPlayers.player2Id))

instance (t : Table) : Decidable (TableInv t) := by
  unfold TableInv
  infer_instance

/-- `POST /api/tables/:tableId/claim-win` (`src/unnamed/part_013`
lines 345-413, the revision whose claim/confirm protocol operates on the
table's `currentPlayers`).  Checks, in source order: the table exists; the
claimant occupies a slot (403); both slots are occupied (400); the opponent
user exists in the database (404).  On success only the table's status
changes, to `awaiting_confirmation`: the session store is untouched and no
winner is recorded anywhere. -/
def claimWinP13 (winnerId : UserId) (userExists : UserId → Bool)
    (table : Option Table) (sessions : Nat → Option Session) :
    Nat × Option Table × (Nat → Option Session) :=
  match table with
  | none => (404, none, sessions)
  | some t =>
    if ¬(t.currentPlayers.player1Id = some winnerId)
        ∧ ¬(t.currentPlayers.player2Id = some winnerId) then
      (403, some t, sessions)
    else if t.currentPlayers.player1Id = none ∨ t.currentPlayers.player2Id = none then
      (400, some t, sessions)
    else
      match if t.currentPlayers.player1Id = some winnerId
            then t.currentPlayers.player2Id else t.currentPlayers.player1Id with
      | none => (404, some t, sessions)
      | some loserId =>
        if userExists loserId = false then (404, some t, sessions)
        else (200, some { t with status := TableStatus.awaiting_confirmation }, sessions)

/-- `inviteNextPlayer` (`services/gameService.js` lines 71-165).  Returns the
updated table and the invited user (if any).  Mirrors the source: early
return when both slots are full and the table is `in_play`; `activeQueue`
filters out queue entries equal to a current player; when it is empty the
table becomes `available` if fully unoccupied; otherwise the head of
`activeQueue` is taken — if that user no longer exists it is removed from
the queue and the function retries (the queue shrinks, so the retries are
bounded by the queue length) — and assigned to the first open slot, the
status becomes `in_play` and the invitee is removed from the queue. -/
def inviteNextPlayer (userExists : UserId → Bool) (t : Table) :
    Table × Option UserId :=
  if t.currentPlayers.player1Id.isSome ∧ t.currentPlayers.player2Id.isSome
      ∧ t.status = TableStatus.in_play then
    (t, none)
  else
    match hq : t.queue.filter (fun u => !(t.currentPlayers.player1Id == some u)
        && !(t.currentPlayers.player2Id == some u)) with
    | [] =>
      if t.currentPlayers.player1Id = none ∧ t.currentPlayers.player2Id = none then
        ({ t with status := TableStatus.available }, none)
      else (t, none)
    | nextPlayerId :: _ =>
      if userExists nextPlayerId = false then
        inviteNextPlayer userExists
          { t with queue := t.queue.filter (fun u => !(u == nextPlayerId)) }
      else
        match t.currentPlayers.player1Id with
        | none =>
          ({ t with
              currentPlayers := { t.currentPlayers with player1Id := some nextPlayerId },
              status := TableStatus.in_play,
              queue := t.queue.filter (fun u => !(u == nextPlayerId)) },
            some nextPlayerId)
        | some _ =>
          match t.currentPlayers.player2Id with
          | none =>
            ({ t with
                currentPlayers := { t.currentPlayers with player2Id := some nextPlayerId },
                status := TableStatus.in_play,
                queue := t.queue.filter (fun u => !(u == nextPlayerId)) },
              some nextPlayerId)
          | some _ => (t, none)
termination_by t.queue.length
decreasing_by
  have hmem : nextPlayerId ∈ t.queue := by
    have hm : nextPlayerId ∈ t.queue.filter
        (fun u => !(t.currentPlayers.player1Id == some u)
          && !(t.currentPlayers.player2Id == some u)) := by
      rw [hq]
      exact List.mem_cons_self _ _
    exact (List.mem_filter.mp hm).1
  have hsub : (t.queue.filter (fun u => !(u == nextPlayerId))).Sublist t.queue :=
    List.filter_sublist _
  have hne : ¬(t.queue.filter (fun u => !(u == nextPlayerId)) = t.queue) := by
    intro h
    have h2 := (List.filter_eq_self.mp h) nextPlayerId hmem
    simp at h2
  exact Nat.lt_of_le_of_ne hsub.length_le (fun hl => hne (hsub.eq_of_length hl))

/-- Response of `POST /api/tables/:tableId/confirm-win` in the
`src/unnamed/part_013` revision: HTTP status, table, session store, and the
user invited by the `inviteNextPlayer` call the handler makes on success. -/
structure ConfirmWinP13Out where
  httpStatus : Nat
  table : Option Table
  sessions : Nat → Option Session
  invited : Option UserId

/-- `POST /api/tables/:tableId/confirm-win` (`src/unnamed/part_013`
lines 421-499).  Checks, in source order: the table exists; the confirmer is
the occupant of the slot other than the winner's (403 otherwise); the table
is `awaiting_confirmation` (400 otherwise).  On success: the current session
(when resolvable) becomes `completed`; winner-stays — player 1 becomes the
winner, player 2 is cleared, table `available`, `currentSessionId` null —
and `inviteNextPlayer` is invoked to fill the freed slot.  No token movement
occurs. -/
def confirmWinP13 (confirmerId winnerId : UserId) (userExists : UserId → Bool)
    (table : Option Table) (sessions : Nat → Option Session) : ConfirmWinP13Out :=
  match table with
  | none => ⟨404, none, sessions, none⟩
  | some t =>
    if ¬(t.currentPlayers.player1Id = some winnerId
          ∧ t.currentPlayers.player2Id = some confirmerId)
        ∧ ¬(t.currentPlayers.player2Id = some winnerId
          ∧ t.currentPlayers.player1Id = some confirmerId) then
      ⟨403, some t, sessions, none⟩
    else if ¬(t.status = TableStatus.awaiting_confirmation) then
      ⟨400, some t, sessions, none⟩
    else
      let sessions' : Nat → Option Session :=
        match t.currentSessionId with
        | some sid =>
          match sessions sid with
          | some s =>
            fun k => if k = sid then some { s with status := SessionStatus.completed }
                     else sessions k
          | none => sessions
        | none => sessions
      let t1 : Table :=
        { t with
          currentSessionId := none,
          currentPlayers := ⟨some winnerId, none⟩,
          status := TableStatus.available }
      let r := inviteNextPlayer userExists t1
      ⟨200, some r.1, sessions', r.2⟩

end CueConnect

namespace CueConnect

/-- C5: for every single debit (pay-for-table, ConfirmPayment) on a user with
balance `b` and cost `c`: if `b < c` the operation fails and the balance is
unchanged; otherwise (all other preconditions holding) the balance becomes
exactly `b - c`; and starting from a non-negative balance no single debit
leaves the balance negative. -/
theorem c5_single_debit_no_overdraft
    (authUid userId : UserId) (cost : Int) (newSid : Nat) (b : Int)
    (table : Option Table) (t : Table) (s : Session)
    (hb : 0 ≤ b) :
    (b < cost →
      (payForTable authUid userId cost newSid (some b) table).userBal = some b ∧
      (payForTable authUid userId cost newSid (some b) table).httpStatus ≠ 200)
    ∧ (authUid = userId → 0 < cost → cost ≤ b →
        (t.status = TableStatus.available ∨ t.status = TableStatus.occupied) →
        (payForTable authUid userId cost newSid (some b) (some t)).httpStatus = 200 ∧
        (payForTable authUid userId cost newSid (some b) (some t)).userBal = some (b - cost))
    ∧ (∀ b', (payForTable authUid userId cost newSid (some b) table).userBal = some b' → 0 ≤ b')
    ∧ (b < s.cost →
        (confirmPayment userId (some s) (some b)).userBal = some b ∧
        (confirmPayment userId (some s) (some b)).httpStatus ≠ 200)
    ∧ ((s.player1Id = userId ∨ s.player2Id = some userId) → s.cost ≤ b →
        (confirmPayment userId (some s) (some b)).httpStatus = 200 ∧
        (confirmPayment userId (some s) (some b)).userBal = some (b - s.cost))
    ∧ (∀ b', (confirmPayment userId (some s) (some b)).userBal = some b' → 0 ≤ b') := by
  refine ⟨?_, ?_, ?_, ?_, ?_, ?_⟩
  · intro hlt
    unfold payForTable
    by_cases h1 : authUid = userId <;> by_cases h2 : cost ≤ 0 <;>
      simp [h1, h2, not_le.mpr hlt, not_lt.mpr (le_of_lt hlt), hlt]
  · intro h1 h2 h3 h4
    unfold payForTable
    have hnl : ¬ b < cost := not_lt.mpr h3
    rcases h4 with h4 | h4 <;>
      simp [h1, not_le.mpr h2, hnl, h4]
  · intro b' h
    unfold payForTable at h
    cases table <;> repeat' split at h
    all_goals simp_all
    all_goals omega
  · intro hlt
    unfold confirmPayment
    by_cases h1 : ¬(s.player1Id = userId) ∧ ¬(s.player2Id = some userId) <;>
      simp [h1, hlt, not_le.mpr hlt]
  · intro h1 h2
    unfold confirmPayment
    have hnl : ¬ b < s.cost := not_lt.mpr h2
    rcases h1 with h1 | h1 <;> simp [h1, hnl]
  · intro b' h
    unfold confirmPayment at h
    repeat' split at h
    all_goals simp_all
    all_goals omega

/-- Witness for C5 at a concrete input: balance 50, cost 10. -/
theorem c5_single_debit_no_overdraft_witness :
    (payForTable "A" "A" 10 1 (some 50)
        (some ⟨TableStatus.available, ⟨none, none⟩, none, []⟩)).userBal = some 40 := by
  have h := c5_single_debit_no_overdraft "A" "A" 10 1 50
      (some ⟨TableStatus.available, ⟨none, none⟩, none, []⟩)
      ⟨TableStatus.available, ⟨none, none⟩, none, []⟩
      ⟨"A", none, 10, SessionStatus.active, none⟩ (by decide)
  exact (h.2.1 rfl (by decide) (by decide) (Or.inl rfl)).2

/-- C10: pay-with-tokens with `cost = perGameCost` and sufficient balance
decrements only the caller's balance — the table (status, players, queue,
session reference) is returned unchanged and the session store is untouched;
with `cost ≠ perGameCost` it fails with 400 and changes nothing. -/
theorem c10_pay_with_tokens_frame (cost b perGameCost : Int) (t : Table)
    (sessions : List Session) :
    (cost = perGameCost → cost ≤ b →
      payWithTokens cost (some b) (some t) perGameCost sessions
        = ⟨200, some (b - cost), some t, sessions⟩)
    ∧ (¬(cost = perGameCost) →
      payWithTokens cost (some b) (some t) perGameCost sessions
        = ⟨400, some b, some t, sessions⟩)
    ∧ ((payWithTokens cost (some b) (some t) perGameCost sessions).table = some t
       ∧ (payWithTokens cost (some b) (some t) perGameCost sessions).sessions = sessions) := by
  refine ⟨?_, ?_, ?_⟩
  · intro h1 h2
    subst h1
    simp [payWithTokens, not_lt.mpr h2]
  · intro h1
    simp [payWithTokens, h1]
  · unfold payWithTokens
    by_cases h1 : cost = perGameCost
    · subst h1
      by_cases h2 : b < cost <;> simp [h2]
    · simp [h1]

/-- Witness for C10: venue cost 10, balance 25 → balance 15, table and
sessions untouched. -/
theorem c10_pay_with_tokens_frame_witness :
    payWithTokens 10 (some 25)
        (some ⟨TableStatus.in_play, ⟨some "A", none⟩, some 7, ["B"]⟩) 10 []
      = ⟨200, some 15, some ⟨TableStatus.in_play, ⟨some "A", none⟩, some 7, ["B"]⟩, []⟩ :=
  (c10_pay_with_tokens_frame 10 25 10
      ⟨TableStatus.in_play, ⟨some "A", none⟩, some 7, ["B"]⟩ []).1 rfl (by decide)

/-- C1 (code bug): the `payment_intent.succeeded` webhook branch credits the
user's `tokenBalance` on *every* delivery of an event with the same
payment-intent id — it performs no idempotency check before the credit.
Processing the same event (`pi_1`, 50 tokens) twice from balance 100 yields
200, not the 150 the claim requires (the repeat is not a no-op). -/
theorem c1_webhook_credits_on_every_delivery :
    (onPaymentIntentSucceeded "pi_1" "u1" 50
        (onPaymentIntentSucceeded "pi_1" "u1" 50
          ⟨100, some ⟨"u1", 50, SessionStatus.pending, none⟩⟩)).tokenBalance = 200
    ∧ (onPaymentIntentSucceeded "pi_1" "u1" 50
        ⟨100, some ⟨"u1", 50, SessionStatus.pending, none⟩⟩).tokenBalance = 150
    ∧ (200 : Int) ≠ 150 := by
  refine ⟨rfl, rfl, by decide⟩

/-- C2 (code bug): with balance 10, two concurrent debit handlers of cost 10
each, interleaved read–read–write–write, BOTH pass the `tokenBalance < cost`
check although together they overdraw (10 + 10 > 10); the second lost-update
write leaves the balance at 0, so 20 tokens of payment were accepted against
a balance of 10. -/
theorem c2_interleaved_debits_both_pass :
    (runSchedule [false, true, false, true]
        ⟨10, ⟨10, 0, 0, false⟩, ⟨10, 0, 0, false⟩⟩).t1.passed = true
    ∧ (runSchedule [false, true, false, true]
        ⟨10, ⟨10, 0, 0, false⟩, ⟨10, 0, 0, false⟩⟩).t2.passed = true
    ∧ (10 : Int) + 10 > 10
    ∧ (runSchedule [false, true, false, true]
        ⟨10, ⟨10, 0, 0, false⟩, ⟨10, 0, 0, false⟩⟩).tokenBalance = 0 := by
  refine ⟨by decide, by decide, by decide, by decide⟩

/-- C3 counterexample: a successful ConfirmWin (session pending confirmation
for winner `w`, confirmed by the opponent `c`, session cost 10, `w`'s balance
40) leaves `w`'s balance at 40 — not the 40 + 10 the claim requires. -/
theorem c3_no_credit_counterexample :
    (confirmWin "c" "w"
        (some ⟨"w", some "c", 10, SessionStatus.pending_confirmation, some "w"⟩)
        (some ⟨TableStatus.in_play, ⟨some "w", some "c"⟩, some 1, []⟩)
        (fun u => if u = "w" then 40 else 20)).httpStatus = 200
    ∧ (confirmWin "c" "w"
        (some ⟨"w", some "c", 10, SessionStatus.pending_confirmation, some "w"⟩)
        (some ⟨TableStatus.in_play, ⟨some "w", some "c"⟩, some 1, []⟩)
        (fun u => if u = "w" then 40 else 20)).users "w" = 40
    ∧ ¬((40 : Int) = 40 + 10) := by decide

/-- C3 (amended): a successful ConfirmWin marks the session `completed` and
its `winnerId` (recorded when the win was claimed) equals the claimed winner,
but no token credit occurs: every user's balance is unchanged. -/
theorem c3_confirm_win_completes_no_credit
    (confirmerId winnerId : UserId) (s : Session) (t : Table) (users : UserId → Int)
    (h1 : s.status = SessionStatus.pending_confirmation)
    (h2 : s.winnerId = some winnerId)
    (h3 : s.player1Id = confirmerId ∨ s.player2Id = some confirmerId)
    (h4 : ¬(confirmerId = winnerId)) :
    (confirmWin confirmerId winnerId (some s) (some t) users).httpStatus = 200
    ∧ (confirmWin confirmerId winnerId (some s) (some t) users).session
        = some { s with status := SessionStatus.completed }
    ∧ (∀ s', (confirmWin confirmerId winnerId (some s) (some t) users).session = some s'
        → s'.winnerId = some winnerId)
    ∧ (∀ u, (confirmWin confirmerId winnerId (some s) (some t) users).users u = users u) := by
  unfold confirmWin
  rcases h3 with h3 | h3 <;> simp [h1, h2, h3, h4]

/-- Witness for C3's amended theorem at a concrete input. -/
theorem c3_confirm_win_completes_no_credit_witness :
    (confirmWin "c" "w"
        (some ⟨"w", some "c", 10, SessionStatus.pending_confirmation, some "w"⟩)
        (some ⟨TableStatus.in_play, ⟨some "w", some "c"⟩, some 1, []⟩)
        (fun _ => 40)).httpStatus = 200 :=
  (c3_confirm_win_completes_no_credit "c" "w"
      ⟨"w", some "c", 10, SessionStatus.pending_confirmation, some "w"⟩
      ⟨TableStatus.in_play, ⟨some "w", some "c"⟩, some 1, []⟩
      (fun _ => 40) rfl rfl (Or.inr rfl) (by decide)).1

/-- C6 counterexample: in the `routes/tableRoutes.js` confirm-win handler a
self-confirmation by the claimed winner (who is a session player) is rejected
with HTTP 400 (`You cannot confirm your own win`), not 403 Forbidden. -/
theorem c6_self_confirm_returns_400 :
    (confirmWin "w" "w"
        (some ⟨"w", some "c", 10, SessionStatus.pending_confirmation, some "w"⟩)
        (some ⟨TableStatus.in_play, ⟨some "w", some "c"⟩, some 1, []⟩)
        (fun _ => 0)).httpStatus = 400
    ∧ ¬((400 : Nat) = 403) := by decide

/-- C6 (amended): a ConfirmWin call with `confirmerId = winnerId` always
fails and changes no session or table state — with HTTP 400 (not Forbidden)
in the `routes/tableRoutes.js` handler, and 403 Forbidden in the
`src/unnamed/part_013` handler provided the two slots are not both occupied
by the winner. -/
theorem c6_self_confirm_always_fails
    (w : UserId) (session : Option Session) (table t2 : Option Table)
    (users : UserId → Int) (ue : UserId → Bool) (sessions : Nat → Option Session)
    (hp : ∀ tt, t2 = some tt →
      ¬(tt.currentPlayers.player1Id = some w ∧ tt.currentPlayers.player2Id = some w)) :
    (¬((confirmWin w w session table users).httpStatus = 200)
      ∧ (confirmWin w w session table users).session = session
      ∧ (confirmWin w w session table users).table = table
      ∧ ∀ u, (confirmWin w w session table users).users u = users u)
    ∧ (¬((confirmWinP13 w w ue t2 sessions).httpStatus = 200)
      ∧ (confirmWinP13 w w ue t2 sessions).table = t2
      ∧ ∀ k, (confirmWinP13 w w ue t2 sessions).sessions k = sessions k) := by
  constructor
  · cases session with
    | none => simp [confirmWin]
    | some s =>
      cases table with
      | none => simp [confirmWin]
      | some t =>
        simp only [confirmWin]
        split
        · simp
        · split
          · simp
          · simp
  · cases t2 with
    | none => simp [confirmWinP13]
    | some t =>
      have h := hp t rfl
      have hcond : ¬(t.currentPlayers.player1Id = some w
            ∧ t.currentPlayers.player2Id = some w)
          ∧ ¬(t.currentPlayers.player2Id = some w
            ∧ t.currentPlayers.player1Id = some w) :=
        ⟨h, fun hx => h ⟨hx.2, hx.1⟩⟩
      simp [confirmWinP13, hcond]

/-- Witness for C6's amended theorem at a concrete input. -/
theorem c6_self_confirm_always_fails_witness :
    ¬((confirmWin "w" "w"
        (some ⟨"w", some "c", 10, SessionStatus.pending_confirmation, some "w"⟩)
        (some ⟨TableStatus.in_play, ⟨some "w", some "c"⟩, some 1, []⟩)
        (fun _ => 0)).httpStatus = 200) :=
  (c6_self_confirm_always_fails "w"
      (some ⟨"w", some "c", 10, SessionStatus.pending_confirmation, some "w"⟩)
      (some ⟨TableStatus.in_play, ⟨some "w", some "c"⟩, some 1, []⟩)
      (some ⟨TableStatus.awaiting_confirmation, ⟨some "x", some "y"⟩, none, []⟩)
      (fun _ => 0) (fun _ => true) (fun _ => none)
      (by intro tt h; injection h with h; subst h; decide)).1.1

/-- C7 counterexample: ClaimWin (part_013 handler) succeeds from a table
whose status is `available` — not `in_play` — as long as both slots are
occupied and the opponent exists; the claim's "valid only from in_play" is
false. -/
theorem c7_claim_win_succeeds_outside_in_play :
    (claimWinP13 "a" (fun _ => true)
        (some ⟨TableStatus.available, ⟨some "a", some "b"⟩, some 3, []⟩)
        (fun _ => none)).1 = 200
    ∧ ¬(TableStatus.available = TableStatus.in_play) := by decide

/-- C7 (amended): ClaimWin (part_013 handler) succeeds exactly when the
claimant occupies a slot, the other slot is also occupied, and the opponent
user exists — with no requirement on the table's status.  On success only
the table's status changes, to `awaiting_confirmation`; the session store is
untouched and no winner is recorded; every failing call leaves the table
unchanged. -/
theorem c7_claim_win_characterization
    (winnerId : UserId) (ue : UserId → Bool) (t : Table)
    (sessions : Nat → Option Session) :
    ((claimWinP13 winnerId ue (some t) sessions).1 = 200 →
      (claimWinP13 winnerId ue (some t) sessions).2.1
        = some { t with status := TableStatus.awaiting_confirmation })
    ∧ (∀ k, (claimWinP13 winnerId ue (some t) sessions).2.2 k = sessions k)
    ∧ (¬((claimWinP13 winnerId ue (some t) sessions).1 = 200) →
      (claimWinP13 winnerId ue (some t) sessions).2.1 = some t)
    ∧ (((t.currentPlayers.player1Id = some winnerId
          ∨ t.currentPlayers.player2Id = some winnerId)
        ∧ ¬(t.currentPlayers.player1Id = none)
        ∧ ¬(t.currentPlayers.player2Id = none)
        ∧ (∀ l, (if t.currentPlayers.player1Id = some winnerId
                 then t.currentPlayers.player2Id
                 else t.currentPlayers.player1Id) = some l → ue l = true))
      ↔ (claimWinP13 winnerId ue (some t) sessions).1 = 200) := by
  obtain ⟨st, ⟨p1, p2⟩, sid, q⟩ := t
  match p1, p2 with
  | none, none => simp [claimWinP13]
  | none, some b =>
    by_cases hb : b = winnerId <;> simp [claimWinP13, hb]
  | some a, none =>
    by_cases ha : a = winnerId <;> simp [claimWinP13, ha]
  | some a, some b =>
    by_cases ha : a = winnerId <;> by_cases hb : b = winnerId <;>
      by_cases hua : ue a = true <;> by_cases hub : ue b = true <;>
        simp_all [claimWinP13]

/-- Witness for C7's amended theorem: the on-success effect at a concrete
input. -/
theorem c7_claim_win_characterization_witness :
    (claimWinP13 "a" (fun _ => true)
        (some ⟨TableStatus.in_play, ⟨some "a", some "b"⟩, some 3, ["q1"]⟩)
        (fun _ => none)).2.1
      = some ⟨TableStatus.awaiting_confirmation, ⟨some "a", some "b"⟩, some 3, ["q1"]⟩ :=
  (c7_claim_win_characterization "a" (fun _ => true)
      ⟨TableStatus.in_play, ⟨some "a", some "b"⟩, some 3, ["q1"]⟩
      (fun _ => none)).1 (by decide)

/-- C8 counterexample: pay-for-table does not preserve the at-most-once
invariant.  From the invariant-satisfying state (empty slots, queue = [B]),
user B paying for the table succeeds and installs B as player 1 while B is
still in the queue. -/
theorem c8_pay_for_table_breaks_invariant :
    TableInv ⟨TableStatus.available, ⟨none, none⟩, none, ["B"]⟩
    ∧ (payForTable "B" "B" 10 5 (some 10)
        (some ⟨TableStatus.available, ⟨none, none⟩, none, ["B"]⟩)).httpStatus = 200
    ∧ (payForTable "B" "B" 10 5 (some 10)
        (some ⟨TableStatus.available, ⟨none, none⟩, none, ["B"]⟩)).table
        = some ⟨TableStatus.in_play, ⟨some "B", none⟩, some 5, ["B"]⟩
    ∧ ¬ TableInv ⟨TableStatus.in_play, ⟨some "B", none⟩, some 5, ["B"]⟩ := by decide

/-- C8 (amended): join-queue rejects (HTTP 400) a user already occupying a
slot or already queued, and otherwise appends the user to the queue's tail,
preserving the invariant (at most one occurrence across player1, player2 and
the queue; no duplicates; join order).  The invariant is not preserved by
every operation, though: pay-for-table installs the payer as player 1
without checking the queue (see the counterexample). -/
theorem c8_join_queue_appends_preserves_inv
    (userId : UserId) (t : Table) (hInv : TableInv t) :
    (¬(userId ∈ t.queue) → ¬(t.currentPlayers.player1Id = some userId) →
      ¬(t.currentPlayers.player2Id = some userId) →
      joinQueue userId userId (some t)
        = (200, some { t with
            queue := t.queue ++ [userId],
            status := TableStatus.queued })
      ∧ ∀ t', (joinQueue userId userId (some t)).2 = some t' →
          TableInv t' ∧ t'.queue = t.queue ++ [userId])
    ∧ ((userId ∈ t.queue ∨ t.currentPlayers.player1Id = some userId
        ∨ t.currentPlayers.player2Id = some userId) →
      joinQueue userId userId (some t) = (400, some t)) := by
  constructor
  · intro h1 h2 h3
    have hcond : ¬(userId ∈ t.queue ∨ t.currentPlayers.player1Id = some userId
        ∨ t.currentPlayers.player2Id = some userId) := by
      intro h
      rcases h with h | h | h
      · exact h1 h
      · exact h2 h
      · exact h3 h
    constructor
    · simp [joinQueue, hcond]
    · intro t' ht'
      simp [joinQueue, hcond] at ht'
      subst ht'
      refine ⟨⟨?_, ?_, ?_⟩, rfl⟩
      · simp [List.nodup_append, hInv.1, h1]
      · intro u hu
        simp only [List.mem_append, List.mem_singleton] at hu
        rcases hu with hu | hu
        · exact hInv.2.1 u hu
        · subst hu
          exact ⟨h2, h3⟩
      · exact hInv.2.2
  · intro h
    simp [joinQueue, h]

/-- Witness for C8's amended theorem at a concrete input. -/
theorem c8_join_queue_appends_preserves_inv_witness :
    joinQueue "C" "C" (some ⟨TableStatus.in_play, ⟨some "A", some "B"⟩, some 2, []⟩)
      = (200, some ⟨TableStatus.queued, ⟨some "A", some "B"⟩, some 2, ["C"]⟩) :=
  ((c8_join_queue_appends_preserves_inv "C"
      ⟨TableStatus.in_play, ⟨some "A", some "B"⟩, some 2, []⟩
      (by decide)).1 (by decide) (by decide) (by decide)).1

/-- When no queue entry equals a current player, `activeQueue` is the whole
queue. -/
theorem activeQueue_eq_self (p1 p2 : Option UserId) (q : List UserId)
    (h : ∀ u ∈ q, ¬(p1 = some u) ∧ ¬(p2 = some u)) :
    q.filter (fun u => !(p1 == some u) && !(p2 == some u)) = q := by
  apply List.filter_eq_self.mpr
  intro u hu
  have hu' := h u hu
  simp only [Bool.and_eq_true, Bool.not_eq_true']
  constructor
  · exact beq_eq_false_iff_ne.mpr hu'.1
  · exact beq_eq_false_iff_ne.mpr hu'.2

/-- Removing an element that does not occur leaves a list unchanged. -/
theorem filter_ne_of_not_mem (a : UserId) (l : List UserId) (h : a ∉ l) :
    l.filter (fun u => !(u == a)) = l := by
  apply List.filter_eq_self.mpr
  intro u hu
  simp only [Bool.not_eq_true']
  exact beq_eq_false_iff_ne.mpr (fun he => h (he ▸ hu))

/-- Characterization of `inviteNextPlayer` on a table satisfying the
documented invariant (queue disjoint from the occupants, no duplicates) with
an open slot: the invitee is the first queued user that still exists
(`dropWhile`), the entries skipped over are removed together with the
invitee, the occupants are untouched when nobody can be invited, and the
invitee lands in the first open slot with the table set `in_play`. -/
theorem inviteNextPlayer_spec (ue : UserId → Bool) (t : Table)
    (hnd : t.queue.Nodup)
    (hdisj : ∀ u ∈ t.queue, ¬(t.currentPlayers.player1Id = some u)
        ∧ ¬(t.currentPlayers.player2Id = some u))
    (hopen : t.currentPlayers.player1Id = none ∨ t.currentPlayers.player2Id = none) :
    (inviteNextPlayer ue t).2 = (t.queue.dropWhile (fun u => !(ue u))).head?
    ∧ (inviteNextPlayer ue t).1.queue = (t.queue.dropWhile (fun u => !(ue u))).tail
    ∧ ((t.queue.dropWhile (fun u => !(ue u))).head? = none →
        (inviteNextPlayer ue t).1.currentPlayers = t.currentPlayers)
    ∧ (∀ h, (t.queue.dropWhile (fun u => !(ue u))).head? = some h →
        (inviteNextPlayer ue t).1.status = TableStatus.in_play
        ∧ ((t.currentPlayers.player1Id = none
             ∧ (inviteNextPlayer ue t).1.currentPlayers
                = ⟨some h, t.currentPlayers.player2Id⟩)
          ∨ (¬(t.currentPlayers.player1Id = none)
             ∧ (inviteNextPlayer ue t).1.currentPlayers
                = ⟨t.currentPlayers.player1Id, some h⟩))) := by
  obtain ⟨st, ⟨p1, p2⟩, sid, q⟩ := t
  simp only at hnd hdisj hopen ⊢
  have hfull : ¬(Option.isSome p1 ∧ Option.isSome p2 ∧ st = TableStatus.in_play) := by
    rcases hopen with h | h <;> subst h <;> simp
  revert hnd hdisj
  induction q with
  | nil =>
    intro hnd hdisj
    rw [inviteNextPlayer]
    simp only [hfull, if_false, List.filter_nil, List.dropWhile_nil]
    by_cases hb : p1 = none ∧ p2 = none <;> simp [hb]
  | cons a rest ih =>
    intro hnd hdisj
    have hda := hdisj a (List.mem_cons_self a rest)
    have hdrest : ∀ u ∈ rest, ¬(p1 = some u) ∧ ¬(p2 = some u) :=
      fun u hu => hdisj u (List.mem_cons_of_mem a hu)
    have hndrest : rest.Nodup := (List.nodup_cons.mp hnd).2
    have hanotin : a ∉ rest := (List.nodup_cons.mp hnd).1
    have hfilter : (a :: rest).filter
        (fun u => !(p1 == some u) && !(p2 == some u)) = a :: rest :=
      activeQueue_eq_self p1 p2 (a :: rest) hdisj
    have hremove : (a :: rest).filter (fun u => !(u == a)) = rest := by
      rw [List.filter_cons_of_neg (by simp)]
      exact filter_ne_of_not_mem a rest hanotin
    by_cases hua : ue a = true
    · -- the head exists: it is invited and removed from the queue
      have hdw : (a :: rest).dropWhile (fun u => !(ue u)) = a :: rest :=
        List.dropWhile_cons_of_neg (by simp [hua])
      have hstep :
          inviteNextPlayer ue ⟨st, ⟨p1, p2⟩, sid, a :: rest⟩
            = (match p1 with
               | none =>
                 (⟨TableStatus.in_play, ⟨some a, p2⟩, sid, rest⟩, some a)
               | some _ =>
                 match p2 with
                 | none =>
                   (⟨TableStatus.in_play, ⟨p1, some a⟩, sid, rest⟩, some a)
                 | some _ => (⟨st, ⟨p1, p2⟩, sid, a :: rest⟩, none)) := by
        rw [inviteNextPlayer]
        rw [if_neg hfull]
        split
        · rename_i heq
          rw [hfilter] at heq
          exact absurd heq (by simp)
        · rename_i nextPlayerId tail heq
          rw [hfilter] at heq
          obtain ⟨h1, h2⟩ := List.cons.inj heq
          subst h1
          rw [if_neg (by simp [hua])]
          cases p1 <;> cases p2 <;> simp [hremove]
      rcases hopen with hp | hp
      · subst hp
        simp only [hstep, hdw]
        refine ⟨rfl, rfl, by simp, ?_⟩
        intro h hh
        simp only [List.head?_cons, Option.some.injEq] at hh
        subst hh
        simp
      · subst hp
        cases p1 with
        | none =>
          simp only [hstep, hdw]
          refine ⟨rfl, rfl, by simp, ?_⟩
          intro h hh
          simp only [List.head?_cons, Option.some.injEq] at hh
          subst hh
          simp
        | some v =>
          simp only [hstep, hdw]
          refine ⟨rfl, rfl, by simp, ?_⟩
          intro h hh
          simp only [List.head?_cons, Option.some.injEq] at hh
          subst hh
          simp
    · -- the head no longer exists: it is removed and the next head is tried
      have hdw : (a :: rest).dropWhile (fun u => !(ue u))
          = rest.dropWhile (fun u => !(ue u)) :=
        List.dropWhile_cons_of_pos (by simp [hua])
      have hstep :
          inviteNextPlayer ue ⟨st, ⟨p1, p2⟩, sid, a :: rest⟩
            = inviteNextPlayer ue ⟨st, ⟨p1, p2⟩, sid, rest⟩ := by
        rw [inviteNextPlayer]
        rw [if_neg hfull]
        split
        · rename_i heq
          rw [hfilter] at heq
          exact absurd heq (by simp)
        · rename_i nextPlayerId tail heq
          rw [hfilter] at heq
          obtain ⟨h1, h2⟩ := List.cons.inj heq
          subst h1
          rw [if_pos (by simp [hua]), hremove]
      rw [hstep, hdw]
      exact ih hndrest hdrest

/-- C9: inviteNextPlayer invites the queue head; a head whose user no longer
exists is removed from the queue and the next head is tried (the queue
strictly shrinks on every retry, so the retries are bounded by the queue
length — the recursion is well founded on the queue length); on a table
whose queue is disjoint from the occupants the invitee is the first queued
user that still exists, and the skipped entries are removed, so invitation
order equals queue join order. -/
theorem c9_invite_next_fifo (ue : UserId → Bool) (t : Table)
    (hnd : t.queue.Nodup)
    (hdisj : ∀ u ∈ t.queue, ¬(t.currentPlayers.player1Id = some u)
        ∧ ¬(t.currentPlayers.player2Id = some u))
    (hopen : t.currentPlayers.player1Id = none ∨ t.currentPlayers.player2Id = none) :
    (inviteNextPlayer ue t).2 = (t.queue.dropWhile (fun u => !(ue u))).head?
    ∧ (inviteNextPlayer ue t).1.queue = (t.queue.dropWhile (fun u => !(ue u))).tail
    ∧ (∀ h, t.queue.head? = some h → ue h = true →
        (inviteNextPlayer ue t).2 = some h) := by
  have hs := inviteNextPlayer_spec ue t hnd hdisj hopen
  refine ⟨hs.1, hs.2.1, ?_⟩
  intro h hh hu
  rw [hs.1]
  rcases hq : t.queue with _ | ⟨a, rest⟩
  · rw [hq] at hh
    simp at hh
  · rw [hq] at hh
    simp only [List.head?_cons, Option.some.injEq] at hh
    subst hh
    rw [List.dropWhile_cons_of_neg (by simp [hu])]
    simp

/-- Witness for C9 at a concrete input: queue `[a, b]`, user `a` no longer
exists, `b` does — `b` is invited. -/
theorem c9_invite_next_fifo_witness :
    (inviteNextPlayer (fun u => u == "b")
        ⟨TableStatus.available, ⟨none, none⟩, none, ["a", "b"]⟩).2
      = ((["a", "b"] : List UserId).dropWhile (fun u => !(u == "b"))).head? :=
  (c9_invite_next_fifo (fun u => u == "b")
      ⟨TableStatus.available, ⟨none, none⟩, none, ["a", "b"]⟩
      (by decide) (by decide) (Or.inl rfl)).1

/-- C4 counterexample: in the `routes/tableRoutes.js` confirm-win handler a
successful ConfirmWin clears BOTH player slots (table reset to `available`)
and triggers no queue invitation — the winner does not stay in the first
slot. -/
theorem c4_tableroutes_clears_winner :
    (confirmWin "c" "w"
        (some ⟨"w", some "c", 10, SessionStatus.pending_confirmation, some "w"⟩)
        (some ⟨TableStatus.in_play, ⟨some "w", some "c"⟩, some 1, ["q1"]⟩)
        (fun _ => 0)).httpStatus = 200
    ∧ (confirmWin "c" "w"
        (some ⟨"w", some "c", 10, SessionStatus.pending_confirmation, some "w"⟩)
        (some ⟨TableStatus.in_play, ⟨some "w", some "c"⟩, some 1, ["q1"]⟩)
        (fun _ => 0)).table
        = some ⟨TableStatus.available, ⟨none, none⟩, none, ["q1"]⟩
    ∧ ¬((none : Option UserId) = some "w") := by decide

/-- C4 (amended): in the `src/unnamed/part_013` confirm-win handler a
successful ConfirmWin keeps the winner in the first slot, and the loser's
slot ends empty or holds the first still-existing queued user, supplied by
the `inviteNextPlayer` call the handler makes.  (The `routes/tableRoutes.js`
confirm-win handler instead clears both slots and invites nobody; see the
counterexample.) -/
theorem c4_winner_stays_p13 (confirmerId winnerId : UserId)
    (ue : UserId → Bool) (t : Table) (sessions : Nat → Option Session)
    (hocc : (t.currentPlayers.player1Id = some winnerId
              ∧ t.currentPlayers.player2Id = some confirmerId)
            ∨ (t.currentPlayers.player2Id = some winnerId
              ∧ t.currentPlayers.player1Id = some confirmerId))
    (hst : t.status = TableStatus.awaiting_confirmation)
    (hnd : t.queue.Nodup)
    (hw : ∀ u ∈ t.queue, ¬(u = winnerId)) :
    (confirmWinP13 confirmerId winnerId ue (some t) sessions).httpStatus = 200
    ∧ (∀ t', (confirmWinP13 confirmerId winnerId ue (some t) sessions).table = some t' →
        t'.currentPlayers.player1Id = some winnerId
        ∧ t'.currentPlayers.player2Id = (t.queue.dropWhile (fun u => !(ue u))).head?)
    ∧ (confirmWinP13 confirmerId winnerId ue (some t) sessions).invited
        = (t.queue.dropWhile (fun u => !(ue u))).head? := by
  obtain ⟨st, ⟨p1, p2⟩, sid, q⟩ := t
  simp only at hocc hst hnd hw ⊢
  subst hst
  have hcond : ¬(¬(p1 = some winnerId ∧ p2 = some confirmerId)
      ∧ ¬(p2 = some winnerId ∧ p1 = some confirmerId)) := by
    rcases hocc with h | h
    · intro hx
      exact hx.1 h
    · intro hx
      exact hx.2 h
  have hs := inviteNextPlayer_spec ue
      ⟨TableStatus.available, ⟨some winnerId, none⟩, none, q⟩ hnd
      (by
        intro u hu
        refine ⟨?_, by simp⟩
        intro he
        injection he with he
        exact hw u hu he.symm)
      (Or.inr rfl)
  simp only at hs
  simp only [confirmWinP13]
  rw [if_neg hcond]
  rw [if_neg (by simp)]
  dsimp only
  refine ⟨rfl, ?_, hs.1⟩
  intro t' ht'
  simp only [Option.some.injEq] at ht'
  subst ht'
  rcases hd : (q.dropWhile (fun u => !(ue u))).head? with _ | h
  · have hcp := hs.2.2.1 hd
    rw [hcp]
    exact ⟨rfl, rfl⟩
  · have hcp := hs.2.2.2 h hd
    rcases hcp.2 with ⟨hc1, _⟩ | ⟨_, hc2⟩
    · exact absurd hc1 (by simp)
    · rw [hc2]
      exact ⟨rfl, rfl⟩

/-- Witness for C4's amended theorem at a concrete input. -/
theorem c4_winner_stays_p13_witness :
    (confirmWinP13 "c" "w" (fun _ => true)
        (some ⟨TableStatus.awaiting_confirmation, ⟨some "w", some "c"⟩, some 1, ["q1"]⟩)
        (fun _ => none)).httpStatus = 200 :=
  (c4_winner_stays_p13 "c" "w" (fun _ => true)
      ⟨TableStatus.awaiting_confirmation, ⟨some "w", some "c"⟩, some 1, ["q1"]⟩
      (fun _ => none) (Or.inl ⟨rfl, rfl⟩) rfl (by decide) (by decide)).1

end CueConnect
